import Mathlib

/-!
Verification development for the moss-samples repository.

Each sample script is shallowly embedded: the sequence of Moss SDK calls a
script issues is modelled as an explicit trace, with the outcomes of the
external SDK calls supplied as parameters (the SDK itself is an opaque remote
service).  JavaScript numbers are modelled as integers, strings as Lean
strings, and JavaScript truthiness of `process.env` values (undefined or empty
string are falsy) is made explicit.
-/

/-- JavaScript truthiness of a `process.env` value: `undefined` (here `none`)
and the empty string are falsy. -/
def envPresent : Option String → Bool
  | none => false
  | some s => !s.isEmpty

/- ======================================================================
   C1: clustering.ts `main` — job poll loop (lines 50–83).

   The loop polls `getJobStatus`, breaks on status "completed", calls
   `process.exit(1)` on "failed", and otherwise sleeps 7000 ms and polls
   again.  `getClusters` is called after the loop, i.e. only on the break
   path.  The sequence of statuses returned by successive `getJobStatus`
   calls is the parameter; an exhausted list models a still-running job
   (the loop would keep polling).
   ====================================================================== -/

/-- Observable events of the clustering sample's main function. -/
inductive ClusterEvent where
  | getJobStatus (status : String)
  | delay (ms : Nat)
  | exitProcess (code : Nat)
  | getClusters
deriving DecidableEq

/-- Trace of the `while (true)` poll loop of clustering.ts, driven by the
list of statuses successive `getJobStatus` calls return. -/
def pollLoop : List String → List ClusterEvent
  | [] => []
  | s :: rest =>
    ClusterEvent.getJobStatus s ::
      (if s = "completed" then []
       else if s = "failed" then [ClusterEvent.exitProcess 1]
       else ClusterEvent.delay 7000 :: pollLoop rest)

/-- How the poll loop ends: `broke` = status "completed" observed (break),
`exited` = status "failed" observed (process.exit 1), `pending` = the
supplied statuses ran out with the loop still going. -/
inductive LoopOutcome where
  | broke
  | exited
  | pending
deriving DecidableEq

/-- Outcome of the poll loop on a given status sequence. -/
def pollOutcome : List String → LoopOutcome
  | [] => LoopOutcome.pending
  | s :: rest =>
    if s = "completed" then LoopOutcome.broke
    else if s = "failed" then LoopOutcome.exited
    else pollOutcome rest

/-- Trace of clustering.ts `main` from the start of the poll loop:
`getClusters` runs only after the loop ends via break. -/
def clusteringMainTrace (statuses : List String) : List ClusterEvent :=
  pollLoop statuses ++
    (match pollOutcome statuses with
     | LoopOutcome.broke => [ClusterEvent.getClusters]
     | _ => [])

lemma delay_mem_pollLoop : ∀ (statuses : List String) (ms : Nat),
    ClusterEvent.delay ms ∈ pollLoop statuses → ms = 7000 := by
  intro statuses
  induction statuses with
  | nil => intro ms h; simp [pollLoop] at h
  | cons s rest ih =>
    intro ms h
    by_cases hc : s = "completed"
    · simp [pollLoop, hc] at h
    · by_cases hf : s = "failed"
      · simp [pollLoop, hc, hf] at h
      · simp only [pollLoop, if_neg hc, if_neg hf, List.mem_cons] at h
        rcases h with h | h | h
        · simp at h
        · simpa using h
        · exact ih ms h

lemma getClusters_not_mem_pollLoop : ∀ statuses : List String,
    ClusterEvent.getClusters ∉ pollLoop statuses := by
  intro statuses
  induction statuses with
  | nil => simp [pollLoop]
  | cons s rest ih =>
    intro h
    by_cases hc : s = "completed"
    · simp [pollLoop, hc] at h
    · by_cases hf : s = "failed"
      · simp [pollLoop, hc, hf] at h
      · simp only [pollLoop, if_neg hc, if_neg hf, List.mem_cons] at h
        rcases h with h | h | h
        · simp at h
        · simp at h
        · exact ih h

lemma exit_mem_pollLoop_code : ∀ (statuses : List String) (c : Nat),
    ClusterEvent.exitProcess c ∈ pollLoop statuses → c = 1 := by
  intro statuses
  induction statuses with
  | nil => intro c h; simp [pollLoop] at h
  | cons s rest ih =>
    intro c h
    by_cases hc : s = "completed"
    · simp [pollLoop, hc] at h
    · by_cases hf : s = "failed"
      · simp only [pollLoop, if_neg hc, if_pos hf, List.mem_cons] at h
        rcases h with h | h
        · simp at h
        · simpa using h
      · simp only [pollLoop, if_neg hc, if_neg hf, List.mem_cons] at h
        rcases h with h | h | h
        · simp at h
        · simp at h
        · exact ih c h

lemma exit_mem_pollLoop_iff (statuses : List String) :
    ClusterEvent.exitProcess 1 ∈ pollLoop statuses ↔
      pollOutcome statuses = LoopOutcome.exited := by
  induction statuses with
  | nil => simp [pollLoop, pollOutcome]
  | cons s rest ih =>
    simp only [pollLoop, pollOutcome]
    by_cases hc : s = "completed"
    · simp [hc]
    · by_cases hf : s = "failed"
      · simp [hc, hf]
      · simp [hc, hf, ih]

lemma pollOutcome_pending_iff (statuses : List String) :
    pollOutcome statuses = LoopOutcome.pending ↔
      ∀ s ∈ statuses, s ≠ "completed" ∧ s ≠ "failed" := by
  induction statuses with
  | nil => simp [pollOutcome]
  | cons s rest ih =>
    simp only [pollOutcome]
    by_cases hc : s = "completed"
    · simp [hc]
    · by_cases hf : s = "failed"
      · simp [hc, hf]
      · simp [hc, hf, ih]

lemma completed_mem_pollLoop : ∀ statuses : List String,
    pollOutcome statuses = LoopOutcome.broke →
      ClusterEvent.getJobStatus "completed" ∈ pollLoop statuses := by
  intro statuses
  induction statuses with
  | nil => intro h; simp [pollOutcome] at h
  | cons s rest ih =>
    intro h
    by_cases hc : s = "completed"
    · simp [pollLoop, hc]
    · by_cases hf : s = "failed"
      · simp [pollOutcome, hc, hf] at h
      · simp only [pollOutcome, if_neg hc, if_neg hf] at h
        simp only [pollLoop, if_neg hc, if_neg hf, List.mem_cons]
        exact Or.inr (Or.inr (ih h))

lemma pre_of_append_singleton {α} (a : α) :
    ∀ (xs pre post : List α), a ∉ xs → pre ++ a :: post = xs ++ [a] →
      pre = xs := by
  intro xs
  induction xs with
  | nil =>
    intro pre post _ h
    cases pre with
    | nil => rfl
    | cons b bs =>
      simp only [List.cons_append, List.nil_append] at h
      have hlen := congrArg List.length h
      simp [List.length_append] at hlen
  | cons x xs ih =>
    intro pre post hna h
    cases pre with
    | nil =>
      simp only [List.nil_append, List.cons_append, List.cons.injEq] at h
      exact absurd (h.1 ▸ List.mem_cons_self x xs) hna
    | cons b bs =>
      simp only [List.cons_append, List.cons.injEq] at h
      have : bs = xs := ih bs post (fun hm => hna (List.mem_cons_of_mem _ hm)) h.2
      rw [h.1, this]

/-- C1: in the clustering sample's main function, every delay between polls is
7000 ms; the loop is still pending exactly when no polled status was
"completed" or "failed"; any process exit carries code 1 and happens exactly
when "failed" was observed before any "completed"; `getClusters` appears in the
trace only after a `getJobStatus` response with status "completed"; and a poll
returning any other status is followed by the 7-second delay and another
poll. -/
theorem clustering_poll_loop_spec (statuses : List String) :
    (∀ ms, ClusterEvent.delay ms ∈ clusteringMainTrace statuses → ms = 7000) ∧
    (pollOutcome statuses = LoopOutcome.pending ↔
      ∀ s ∈ statuses, s ≠ "completed" ∧ s ≠ "failed") ∧
    (∀ c, ClusterEvent.exitProcess c ∈ clusteringMainTrace statuses → c = 1) ∧
    (ClusterEvent.exitProcess 1 ∈ clusteringMainTrace statuses ↔
      pollOutcome statuses = LoopOutcome.exited) ∧
    (∀ pre post, clusteringMainTrace statuses =
        pre ++ ClusterEvent.getClusters :: post →
      ClusterEvent.getJobStatus "completed" ∈ pre) ∧
    (∀ s rest, s ≠ "completed" → s ≠ "failed" →
      pollLoop (s :: rest) =
        ClusterEvent.getJobStatus s :: ClusterEvent.delay 7000 ::
          pollLoop rest) := by
  have htail : clusteringMainTrace statuses = pollLoop statuses ++
      (match pollOutcome statuses with
       | LoopOutcome.broke => [ClusterEvent.getClusters]
       | _ => []) := rfl
  refine ⟨?_, pollOutcome_pending_iff statuses, ?_, ?_, ?_, ?_⟩
  · intro ms h
    rw [htail] at h
    rcases List.mem_append.mp h with h | h
    · exact delay_mem_pollLoop statuses ms h
    · cases hpo : pollOutcome statuses <;> rw [hpo] at h <;> simp at h
  · intro c h
    rw [htail] at h
    rcases List.mem_append.mp h with h | h
    · exact exit_mem_pollLoop_code statuses c h
    · cases hpo : pollOutcome statuses <;> rw [hpo] at h <;> simp at h
  · rw [htail]
    constructor
    · intro h
      rcases List.mem_append.mp h with h | h
      · exact (exit_mem_pollLoop_iff statuses).mp h
      · cases hpo : pollOutcome statuses <;> rw [hpo] at h <;> simp at h
    · intro h
      exact List.mem_append.mpr (Or.inl ((exit_mem_pollLoop_iff statuses).mpr h))
  · intro pre post h
    rw [htail] at h
    cases hpo : pollOutcome statuses <;> rw [hpo] at h
    · -- broke: the suffix is [getClusters]; pre must be the whole poll trace
      simp only [List.append_nil] at h
      have hpre : pre = pollLoop statuses :=
        pre_of_append_singleton ClusterEvent.getClusters (pollLoop statuses)
          pre post (getClusters_not_mem_pollLoop statuses) h.symm
      rw [hpre]
      exact completed_mem_pollLoop statuses hpo
    · simp only [List.append_nil] at h
      have : ClusterEvent.getClusters ∈ pollLoop statuses := by
        rw [h]; exact List.mem_append.mpr (Or.inr (List.mem_cons_self _ _))
      exact absurd this (getClusters_not_mem_pollLoop statuses)
    · simp only [List.append_nil] at h
      have : ClusterEvent.getClusters ∈ pollLoop statuses := by
        rw [h]; exact List.mem_append.mpr (Or.inr (List.mem_cons_self _ _))
      exact absurd this (getClusters_not_mem_pollLoop statuses)
  · intro s rest hc hf
    simp [pollLoop, hc, hf]

/-- Witness for C1 at the concrete status sequence ["running", "completed"]:
`getClusters` is preceded by a completed poll. -/
theorem clustering_poll_loop_spec_witness :
    ClusterEvent.getJobStatus "completed" ∈
      [ClusterEvent.getJobStatus "running", ClusterEvent.delay 7000,
       ClusterEvent.getJobStatus "completed"] := by
  have h := (clustering_poll_loop_spec ["running", "completed"]).2.2.2.2.1
  exact h [ClusterEvent.getJobStatus "running", ClusterEvent.delay 7000,
    ClusterEvent.getJobStatus "completed"] [] (by decide)

/- ======================================================================
   C2 / C9 / C10: vitepress-plugin-moss search widget
   (src/Frontend/pages/index.tsx, Vue component).

   The watcher on `query` (lines 127–135), the lazy `loadIndex`
   (lines 70–85) with the `open` handler (lines 90–95), and the modal
   keyboard handler (lines 162–177) are embedded as pure transition
   functions.  The component keeps a single `debounceTimer` slot:
   `clearTimeout` plus reassignment is modelled by overwriting the slot.
   ====================================================================== -/

/-- Metadata attached to a search result (interface MossMetadata). -/
structure MossMetadata where
  title : String
  groupId : String
  type : String
  groupTitle : String
  displayBreadcrumb : String
  sanitizedText : String
  navigation : String
deriving DecidableEq

/-- A search result (interface MossResult). -/
structure MossResult where
  id : String
  text : String
  score : Option Int
  metadata : Option MossMetadata
deriving DecidableEq

/-- Model of JavaScript `!q.trim()`: the query is whitespace-only. -/
def jsBlank (q : String) : Bool := q.data.all Char.isWhitespace

/-- State read and written by the widget's `watch(query)` callback. -/
structure WidgetState where
  debounceTimer : Option (Nat × String)
  results : List MossResult
  selectedIndex : Int
deriving DecidableEq

/-- The `watch(query)` callback: clears the pending debounce timer
(overwrites the single slot); on a blank query it clears the results and
schedules nothing; otherwise it schedules `performSearch q` after 200 ms.
The second component lists `performSearch` calls issued immediately
(synchronously) by the watcher — the source issues none. -/
def watchQuery (q : String) (s : WidgetState) : WidgetState × List String :=
  if jsBlank q then
    ({ s with debounceTimer := none, results := [], selectedIndex := -1 }, [])
  else
    ({ s with debounceTimer := some (200, q) }, [])

/-- Calls the widget performs at page load (module setup plus `onMounted`,
line 193): only the global keydown listener is registered. -/
inductive WidgetCall where
  | loadIndexCall
  | focusInput
  | addKeydownListener
deriving DecidableEq

/-- Calls made when the component is mounted at page load. -/
def onMountedCalls : List WidgetCall := [WidgetCall.addKeydownListener]

/-- Calls made by `open()` when the search modal is opened. -/
def openCalls : List WidgetCall := [WidgetCall.loadIndexCall, WidgetCall.focusInput]

/-- Module-level client state of the widget (lines 66–68): client and flags
plus counters of client constructions and SDK `loadIndex` calls. -/
structure LoadState where
  indexLoaded : Bool
  isIndexLoading : Bool
  mossClientConstructed : Nat
  sdkLoadCalls : Nat
deriving DecidableEq

/-- Initial widget state at page load: no client, nothing loaded. -/
def initLoadState : LoadState :=
  { indexLoaded := false, isIndexLoading := false,
    mossClientConstructed := 0, sdkLoadCalls := 0 }

/-- Events of a `loadIndex` attempt: the synchronous part of a call to
`loadIndex` (up to the awaited SDK call), and the completion of the awaited
SDK call (success or exception). -/
inductive LoadEvent where
  | call
  | finishOk
  | finishErr
deriving DecidableEq

/-- One step of the widget `loadIndex` state machine.  A call returns
immediately when `indexLoaded` or `isIndexLoading` holds; otherwise it sets
`isIndexLoading`, constructs a `MossClient` and issues the SDK `loadIndex`
call.  Completion sets `indexLoaded` on success and always clears
`isIndexLoading` (the `finally` block); completions are only meaningful
while a load is in flight. -/
def loadStep (s : LoadState) : LoadEvent → LoadState
  | LoadEvent.call =>
    if s.indexLoaded || s.isIndexLoading then s
    else { s with isIndexLoading := true,
                  mossClientConstructed := s.mossClientConstructed + 1,
                  sdkLoadCalls := s.sdkLoadCalls + 1 }
  | LoadEvent.finishOk =>
    if s.isIndexLoading then
      { s with indexLoaded := true, isIndexLoading := false }
    else s
  | LoadEvent.finishErr =>
    if s.isIndexLoading then { s with isIndexLoading := false } else s

/-- C2: the query watcher never calls performSearch synchronously; any
pending debounce timer is discarded and, for a non-blank query, the only
scheduled call is performSearch after 200 ms with the new query; a
whitespace-only query clears the results and schedules nothing; and the
WASM MossClient is constructed lazily — page load registers only the
keydown listener and constructs no client, while loadIndex is invoked by
`open`. -/
theorem widget_debounce_lazy_spec :
    (∀ q s, (watchQuery q s).2 = []) ∧
    (∀ q s, jsBlank q = false →
      (watchQuery q s).1.debounceTimer = some (200, q)) ∧
    (∀ q s, jsBlank q = true →
      (watchQuery q s).1.debounceTimer = none ∧
      (watchQuery q s).1.results = [] ∧
      (watchQuery q s).1.selectedIndex = -1) ∧
    WidgetCall.loadIndexCall ∉ onMountedCalls ∧
    WidgetCall.loadIndexCall ∈ openCalls ∧
    initLoadState.mossClientConstructed = 0 ∧
    initLoadState.indexLoaded = false := by
  refine ⟨?_, ?_, ?_, by decide, by decide, rfl, rfl⟩
  · intro q s
    unfold watchQuery
    split <;> rfl
  · intro q s h
    simp [watchQuery, h]
  · intro q s h
    simp [watchQuery, h]

/-- Witness for C2 at a concrete non-blank and a concrete blank query. -/
theorem widget_debounce_lazy_spec_witness :
    (watchQuery "hooks" ⟨some (200, "hook"), [], -1⟩).1.debounceTimer
        = some (200, "hooks") ∧
    (watchQuery "  " ⟨some (200, "hook"), [], -1⟩).1.debounceTimer = none :=
  ⟨widget_debounce_lazy_spec.2.1 "hooks" ⟨some (200, "hook"), [], -1⟩ (by decide),
   (widget_debounce_lazy_spec.2.2.1 "  " ⟨some (200, "hook"), [], -1⟩ (by decide)).1⟩

/-- C9 as stated is too strong: after a failed load attempt the flags are
reset, so a later call to loadIndex constructs a second MossClient.  On the
event sequence call, finishErr, call the client is constructed twice. -/
theorem widget_loadIndex_twice_counterexample :
    (([LoadEvent.call, LoadEvent.finishErr, LoadEvent.call]).foldl
      loadStep initLoadState).mossClientConstructed = 2 := by decide

/-- C9 (amended): once indexLoaded is true or a load is in flight, a further
call to loadIndex returns immediately without constructing another
MossClient or reissuing the SDK loadIndex call, so at most one load attempt
runs at a time; indexLoaded never reverts; after a successful load no
further client is ever constructed; and every construction happens only
when indexLoaded is false and no load is in flight (so a second
construction is possible only after a failed attempt). -/
theorem widget_loadIndex_guard_spec :
    (∀ s : LoadState, s.indexLoaded = true ∨ s.isIndexLoading = true →
      loadStep s LoadEvent.call = s) ∧
    (∀ (s : LoadState) (e : LoadEvent), s.indexLoaded = true →
      (loadStep s e).indexLoaded = true) ∧
    (∀ (evs : List LoadEvent) (s : LoadState), s.indexLoaded = true →
      (evs.foldl loadStep s).mossClientConstructed = s.mossClientConstructed) ∧
    (∀ (s : LoadState) (e : LoadEvent),
      (loadStep s e).mossClientConstructed ≠ s.mossClientConstructed →
      s.indexLoaded = false ∧ s.isIndexLoading = false ∧ e = LoadEvent.call) := by
  have hguard : ∀ s : LoadState, s.indexLoaded = true ∨ s.isIndexLoading = true →
      loadStep s LoadEvent.call = s := by
    intro s h
    have : (s.indexLoaded || s.isIndexLoading) = true := by
      rcases h with h | h <;> simp [h]
    simp [loadStep, this]
  have hmono : ∀ (s : LoadState) (e : LoadEvent), s.indexLoaded = true →
      (loadStep s e).indexLoaded = true := by
    intro s e h
    cases e <;> simp [loadStep, h] <;> split <;> simp [h]
  refine ⟨hguard, hmono, ?_, ?_⟩
  · intro evs
    induction evs with
    | nil => intro s _; rfl
    | cons e rest ih =>
      intro s h
      have hstep : (loadStep s e).mossClientConstructed = s.mossClientConstructed := by
        cases e
        · rw [hguard s (Or.inl h)]
        · simp [loadStep]; split <;> rfl
        · simp [loadStep]; split <;> rfl
      calc ((e :: rest).foldl loadStep s).mossClientConstructed
          = (rest.foldl loadStep (loadStep s e)).mossClientConstructed := rfl
        _ = (loadStep s e).mossClientConstructed := ih _ (hmono s e h)
        _ = s.mossClientConstructed := hstep
  · intro s e h
    cases e with
    | call =>
      by_cases hb : (s.indexLoaded || s.isIndexLoading) = true
      · exact absurd (by simp [loadStep, hb]) h
      · have hb' := hb
        simp only [Bool.or_eq_true, not_or, Bool.not_eq_true] at hb'
        exact ⟨hb'.1, hb'.2, rfl⟩
    | finishOk =>
      exfalso; apply h; simp [loadStep]; split <;> rfl
    | finishErr =>
      exfalso; apply h; simp [loadStep]; split <;> rfl

/-- Witness for C9 (amended): a call while a load is in flight leaves the
state unchanged, and after a successful load no event sequence adds a
construction. -/
theorem widget_loadIndex_guard_spec_witness :
    loadStep ⟨false, true, 1, 1⟩ LoadEvent.call = ⟨false, true, 1, 1⟩ ∧
    (([LoadEvent.call, LoadEvent.call]).foldl loadStep
      ⟨true, false, 1, 1⟩).mossClientConstructed = 1 :=
  ⟨widget_loadIndex_guard_spec.1 ⟨false, true, 1, 1⟩ (Or.inr rfl),
   widget_loadIndex_guard_spec.2.2.1 [LoadEvent.call, LoadEvent.call]
     ⟨true, false, 1, 1⟩ rfl⟩

/-- Effects of the modal keyboard handler: closing the modal and navigating
to a result (`navigateTo` receives `results.value[selectedIndex.value]`,
which is undefined — here `none` — if the index were out of range). -/
inductive ModalEffect where
  | closeModal
  | navigate (r : Option MossResult)
deriving DecidableEq

/-- State read by `handleModalKeydown`: the selected index and the current
results list. -/
structure ModalState where
  selectedIndex : Int
  results : List MossResult
deriving DecidableEq

/-- The modal keyboard handler (index.tsx lines 162–177).  Escape closes
(which resets the selection and results).  ArrowDown moves down clamped to
`results.length - 1`; ArrowUp moves up clamped to `-1`; Enter navigates only
when the selection is at least 0 (navigateTo itself closes the modal).  The
source guard `key === 'Enter' && selectedIndex >= 0` is written as nested
ifs; a non-matching key falls through unchanged either way. -/
def handleModalKeydown (key : String) (s : ModalState) :
    ModalState × List ModalEffect :=
  if key = "Escape" then
    ({ selectedIndex := -1, results := [] }, [ModalEffect.closeModal])
  else if key = "ArrowDown" then
    ({ s with selectedIndex :=
        (min (s.selectedIndex + 1) ((s.results.length : Int) - 1)) }, [])
  else if key = "ArrowUp" then
    ({ s with selectedIndex := (max (s.selectedIndex - 1) (-1)) }, [])
  else if key = "Enter" then
    if 0 ≤ s.selectedIndex then
      ({ selectedIndex := -1, results := [] },
        [ModalEffect.closeModal,
         ModalEffect.navigate (s.results.get? s.selectedIndex.toNat)])
    else (s, [])
  else (s, [])

/-- The selection is within `[-1, results.length - 1]`. -/
def selectionInRange (s : ModalState) : Prop :=
  -1 ≤ s.selectedIndex ∧ s.selectedIndex ≤ (s.results.length : Int) - 1

/-- C10: the keyboard handler keeps `selectedIndex` within
`[-1, results.length - 1]`: ArrowDown increments clamped to
`results.length - 1`, ArrowUp decrements clamped to `-1`, and a navigation
is emitted only when the selection was at least 0 (and only on Enter). -/
theorem modal_keydown_selection_spec (s : ModalState)
    (h : selectionInRange s) :
    (∀ key, selectionInRange (handleModalKeydown key s).1) ∧
    ((handleModalKeydown "ArrowDown" s).1.selectedIndex =
      min (s.selectedIndex + 1) ((s.results.length : Int) - 1)) ∧
    ((handleModalKeydown "ArrowUp" s).1.selectedIndex =
      max (s.selectedIndex - 1) (-1)) ∧
    (∀ key r, ModalEffect.navigate r ∈ (handleModalKeydown key s).2 →
      0 ≤ s.selectedIndex ∧ key = "Enter") := by
  obtain ⟨h1, h2⟩ := h
  refine ⟨?_, by simp [handleModalKeydown], by simp [handleModalKeydown], ?_⟩
  · intro key
    by_cases hEsc : key = "Escape"
    · simp [handleModalKeydown, hEsc, selectionInRange]
    · by_cases hDn : key = "ArrowDown"
      · simp only [handleModalKeydown, hEsc, hDn, if_false, if_true,
          if_neg, if_pos, selectionInRange]
        constructor
        · simp; omega
        · simp
      · by_cases hUp : key = "ArrowUp"
        · simp only [handleModalKeydown, hEsc, hDn, hUp, if_false, if_true,
            if_neg, if_pos, selectionInRange]
          constructor
          · simp
          · simp; omega
        · by_cases hEnt : key = "Enter"
          · simp only [handleModalKeydown, hEsc, hDn, hUp, hEnt,
              if_false, if_true, if_neg, if_pos, selectionInRange]
            by_cases hsel : 0 ≤ s.selectedIndex
            · simp [hsel]
            · simp [hsel]
              exact ⟨h1, h2⟩
          · simp [handleModalKeydown, hEsc, hDn, hUp, hEnt, selectionInRange]
            exact ⟨h1, h2⟩
  · intro key r hmem
    by_cases hEsc : key = "Escape"
    · simp [handleModalKeydown, hEsc] at hmem
    · by_cases hDn : key = "ArrowDown"
      · simp [handleModalKeydown, hEsc, hDn] at hmem
      · by_cases hUp : key = "ArrowUp"
        · simp [handleModalKeydown, hEsc, hDn, hUp] at hmem
        · by_cases hEnt : key = "Enter"
          · by_cases hsel : 0 ≤ s.selectedIndex
            · exact ⟨hsel, hEnt⟩
            · simp [handleModalKeydown, hEsc, hDn, hUp, hEnt, hsel] at hmem
          · simp [handleModalKeydown, hEsc, hDn, hUp, hEnt] at hmem

/-- Witness for C10 at a concrete in-range state with two results. -/
theorem modal_keydown_selection_spec_witness :
    (handleModalKeydown "ArrowDown"
      ⟨1, [⟨"a", "ta", none, none⟩, ⟨"b", "tb", none, none⟩]⟩).1.selectedIndex
      = 1 := by
  have h := (modal_keydown_selection_spec
    ⟨1, [⟨"a", "ta", none, none⟩, ⟨"b", "tb", none, none⟩]⟩
    (by constructor <;> simp)).2.1
  simpa using h

/- ======================================================================
   Shared trace model for the CLI samples: Moss SDK calls and a runner
   that executes a fixed step sequence until a step throws.
   ====================================================================== -/

/-- A Moss SDK (or OpenAI embeddings) call issued by a sample script. -/
inductive SdkCall where
  | createIndex (name : String)
  | getIndex (name : String)
  | listIndexes
  | addDocs (name : String)
  | getDocs (name : String)
  | loadIndex (name : String)
  | query (name : String) (q : String)
  | deleteDocs (name : String)
  | deleteIndex (name : String)
  | openaiEmbedding
deriving DecidableEq

/-- Run a fixed sequence of SDK steps.  `outcomes` gives, positionally,
whether each step succeeds (`none`) or throws (`some message`); missing
outcomes default to success.  Returns the calls issued (a throwing call is
still issued) and the error that aborted the sequence, if any. -/
def runSteps : List SdkCall → List (Option String) → List SdkCall × Option String
  | [], _ => ([], none)
  | c :: cs, [] =>
    let r := runSteps cs []
    (c :: r.1, r.2)
  | c :: cs, o :: os =>
    match o with
    | some err => ([c], some err)
    | none =>
      let r := runSteps cs os
      (c :: r.1, r.2)

/- ======================================================================
   C3 / C5: comprehensive_sample.ts (lines 51–386).
   ====================================================================== -/

/-- Environment variables the Moss samples read. -/
structure MossEnv where
  projectId : Option String
  projectKey : Option String
  indexName : Option String
deriving DecidableEq

/-- The six semantic-search queries of comprehensive_sample.ts Step 8. -/
def comprehensiveSearchQueries : List String :=
  ["artificial intelligence and machine learning",
   "data analysis and business insights",
   "visual recognition and image processing",
   "cybersecurity and data protection",
   "healthcare innovation and biotechnology",
   "sustainable technology and environment"]

/-- The SDK calls of the try block of comprehensiveMossExample, in source
order: create, getIndex, listIndexes, addDocs, getDocs (all), getDocs
(specific ids), loadIndex, the six searches, deleteDocs, getDocs, the final
search, deleteIndex. -/
def comprehensiveSteps (name : String) : List SdkCall :=
  [SdkCall.createIndex name, SdkCall.getIndex name, SdkCall.listIndexes,
   SdkCall.addDocs name, SdkCall.getDocs name, SdkCall.getDocs name,
   SdkCall.loadIndex name] ++
  comprehensiveSearchQueries.map (fun q => SdkCall.query name q) ++
  [SdkCall.deleteDocs name, SdkCall.getDocs name,
   SdkCall.query name "technology innovation and automation",
   SdkCall.deleteIndex name]

/-- The try/catch of comprehensiveMossExample: on a body error the catch
logs and attempts `deleteIndex` inside a nested try/catch, so the cleanup
outcome is swallowed and the function always returns normally (second
component: the error the function lets escape — always `none`). -/
def comprehensiveRun (name : String) (outcomes : List (Option String))
    (_cleanupOutcome : Option String) : List SdkCall × Option String :=
  let r := runSteps (comprehensiveSteps name) outcomes
  match r.2 with
  | none => (r.1, none)
  | some _ => (r.1 ++ [SdkCall.deleteIndex name], none)

/-- comprehensiveMossExample including the env guard (lines 56–66): only
MOSS_PROJECT_ID and MOSS_PROJECT_KEY are checked; when either is missing
the function returns before constructing a client (`none`).  The index name
is `comprehensive-demo-` plus a timestamp. -/
def comprehensiveMossExample (env : MossEnv) (timestamp : String)
    (outcomes : List (Option String)) (cleanupOutcome : Option String) :
    Option (List SdkCall × Option String) :=
  if envPresent env.projectId && envPresent env.projectKey then
    some (comprehensiveRun ("comprehensive-demo-" ++ timestamp)
      outcomes cleanupOutcome)
  else none

/- ======================================================================
   C3 / C5: custom embeddings sample (src/unnamed/part_011).
   ====================================================================== -/

/-- Environment of the custom-embeddings sample (module lines 12–21). -/
structure CustomEnv where
  projectId : Option String
  projectKey : Option String
  openaiApiKey : Option String
  indexName : Option String
deriving DecidableEq

/-- The workflow query of part_011. -/
def workflowQuery : String := "when does the Pine Grove gardening club meet?"

/-- The steps of part_011 `main`'s try block in source order; each
`openaiEmbedding` stands for a batch of OpenAI embedding calls. -/
def customEmbeddingSteps (name : String) : List SdkCall :=
  [SdkCall.openaiEmbedding, SdkCall.createIndex name, SdkCall.openaiEmbedding,
   SdkCall.addDocs name, SdkCall.openaiEmbedding,
   SdkCall.query name workflowQuery, SdkCall.loadIndex name,
   SdkCall.query name workflowQuery]

/-- part_011 `main`: the catch rethrows the original error and the
`finally` block always calls the `deleteIndex` helper, which wraps the SDK
call in its own try/catch so the cleanup outcome is swallowed (second
component: the error `main` lets escape). -/
def customEmbeddingMain (name : String) (outcomes : List (Option String))
    (_cleanupOutcome : Option String) : List SdkCall × Option String :=
  let r := runSteps (customEmbeddingSteps name) outcomes
  (r.1 ++ [SdkCall.deleteIndex name], r.2)

/-- part_011 including the module-level env guard (lines 17–21): all four
variables are required; a missing one throws before any client is
constructed (`none`). -/
def customEmbeddingSample (env : CustomEnv) (outcomes : List (Option String))
    (cleanupOutcome : Option String) : Option (List SdkCall × Option String) :=
  if envPresent env.projectId && envPresent env.projectKey &&
      envPresent env.openaiApiKey && envPresent env.indexName then
    some (customEmbeddingMain (env.indexName.getD "") outcomes cleanupOutcome)
  else none

/- ======================================================================
   C3 / C5 / C7: conversation indexing sample
   (clustering.ts createConversationIndexes, lines 180–234).
   ====================================================================== -/

/-- Model of JavaScript `s.replace(pat, "")` with a string pattern: only the
first occurrence is removed. -/
def removeFirstOcc : List Char → List Char → List Char
  | [], _ => []
  | c :: rest, pat =>
    if pat.isPrefixOf (c :: rest) then (c :: rest).drop pat.length
    else c :: removeFirstOcc rest pat

/-- JavaScript `file.replace(".json", "")` as used for the index name. -/
def jsReplaceFirst (s pat : String) : String :=
  String.mk (removeFirstOcc s.data pat.data)

/-- Modelled from the claim's words: the file name minus its ".json"
suffix. -/
def stripJsonSuffix (file : String) : String :=
  if ".json".data.isSuffixOf file.data then
    String.mk (file.data.take (file.data.length - 5))
  else file

/-- The `.endsWith('.json')` filter on the directory listing. -/
def endsWithJson (file : String) : Bool := ".json".data.isSuffixOf file.data

/-- Outcome of handling one conversation file: the documents parsed from it
(or the error thrown while reading/parsing), and the error `createIndex`
would throw (consulted only when it is actually called). -/
structure ConvFileOutcome where
  loadResult : Except String (List String)
  createResult : Option String

/-- Handle one file inside the per-file try/catch: returns whether
successCount (true) or failCount (false) is incremented, and the SDK calls
issued for this file.  A load error is caught (fail); an empty document
list is skipped without calling createIndex (fail); otherwise createIndex
is called once with `file.replace('.json', '')` as the index name, and its
error, if any, is caught (fail). -/
def processConvFile (file : String) (o : ConvFileOutcome) :
    Bool × List SdkCall :=
  match o.loadResult with
  | Except.error _ => (false, [])
  | Except.ok docs =>
    if docs.length = 0 then (false, [])
    else
      match o.createResult with
      | none => (true, [SdkCall.createIndex (jsReplaceFirst file ".json")])
      | some _ => (false, [SdkCall.createIndex (jsReplaceFirst file ".json")])

/-- Tally of createConversationIndexes: the two counters and the SDK calls
issued. -/
structure ConvTally where
  successCount : Nat
  failCount : Nat
  calls : List SdkCall
deriving DecidableEq

/-- Process one file and update the tally. -/
def convStep (acc : ConvTally) (file : String) (o : ConvFileOutcome) :
    ConvTally :=
  let r := processConvFile file o
  { successCount := (if r.1 then acc.successCount + 1 else acc.successCount),
    failCount := (if r.1 then acc.failCount else acc.failCount + 1),
    calls := (acc.calls ++ r.2) }

/-- createConversationIndexes: filter the directory listing to .json files
and process each in a try/catch that logs and continues. -/
def createConversationIndexes (files : List String)
    (oracle : String → ConvFileOutcome) : ConvTally :=
  (files.filter endsWithJson).foldl
    (fun acc f => convStep acc f (oracle f)) ⟨0, 0, []⟩

/-- createConversationIndexes including the env guard (lines 184–190): only
the two credentials are checked; a missing one returns before the client is
constructed. -/
def createConversationIndexesMain (env : MossEnv) (files : List String)
    (oracle : String → ConvFileOutcome) : Option ConvTally :=
  if envPresent env.projectId && envPresent env.projectKey then
    some (createConversationIndexes files oracle)
  else none

/-- C3 as stated quantifies over every index-creating sample, but the
conversation-indexing sample has no cleanup: when createIndex throws after
the index name is fixed, the per-file catch only logs and continues, and
the full SDK call trace of the run contains no deleteIndex call. -/
theorem index_cleanup_counterexample :
    createConversationIndexes ["a.json"]
      (fun _ => ⟨Except.ok ["m1"], some "boom"⟩) =
      ⟨0, 1, [SdkCall.createIndex "a"]⟩ := by decide

/-- C3 (amended): in the comprehensive sample and the custom-embeddings
sample, whenever the workflow body throws after the index name is fixed, a
best-effort deleteIndex is attempted on that same index name, and an
exception of the cleanup deleteIndex call is caught and does not propagate:
the comprehensive sample swallows both errors and returns normally, the
custom-embeddings sample lets exactly the original workflow error escape
(its finally block always attempts the cleanup).  The conversation-indexing
sample instead logs and continues without attempting any cleanup. -/
theorem index_cleanup_spec :
    (∀ name outs c e, (runSteps (comprehensiveSteps name) outs).2 = some e →
      SdkCall.deleteIndex name ∈ (comprehensiveRun name outs c).1) ∧
    (∀ name outs c, (comprehensiveRun name outs c).2 = none) ∧
    (∀ name outs c c',
      comprehensiveRun name outs c = comprehensiveRun name outs c') ∧
    (∀ name outs c, SdkCall.deleteIndex name ∈ (customEmbeddingMain name outs c).1) ∧
    (∀ name outs c, (customEmbeddingMain name outs c).2 =
      (runSteps (customEmbeddingSteps name) outs).2) ∧
    (∀ name outs c c',
      customEmbeddingMain name outs c = customEmbeddingMain name outs c') := by
  refine ⟨?_, ?_, fun _ _ _ _ => rfl, ?_, fun _ _ _ => rfl, fun _ _ _ _ => rfl⟩
  · intro name outs c e h
    simp only [comprehensiveRun, h]
    exact List.mem_append.mpr (Or.inr (List.mem_cons_self _ _))
  · intro name outs c
    cases hr : (runSteps (comprehensiveSteps name) outs).2 <;>
      simp [comprehensiveRun, hr]
  · intro name outs c
    simp [customEmbeddingMain]

/-- Witness for C3 (amended): a failing first step in the comprehensive
sample still leads to a deleteIndex attempt on the same index name. -/
theorem index_cleanup_spec_witness :
    SdkCall.deleteIndex "idx" ∈ (comprehensiveRun "idx" [some "boom"] none).1 :=
  index_cleanup_spec.1 "idx" [some "boom"] none "boom" (by decide)

lemma convStep_counts (acc : ConvTally) (f : String) (o : ConvFileOutcome) :
    (convStep acc f o).successCount + (convStep acc f o).failCount =
      acc.successCount + acc.failCount + 1 := by
  cases hr : (processConvFile f o).1 <;> simp [convStep, hr] <;> omega

lemma convStep_calls (acc : ConvTally) (f : String) (o : ConvFileOutcome) :
    (convStep acc f o).calls = acc.calls ++ (processConvFile f o).2 := rfl

lemma conv_foldl (oracle : String → ConvFileOutcome) :
    ∀ (files : List String) (acc : ConvTally),
      ((files.foldl (fun a f => convStep a f (oracle f)) acc).successCount +
        (files.foldl (fun a f => convStep a f (oracle f)) acc).failCount =
        acc.successCount + acc.failCount + files.length) ∧
      ((files.foldl (fun a f => convStep a f (oracle f)) acc).calls =
        acc.calls ++ files.flatMap (fun f => (processConvFile f (oracle f)).2)) := by
  intro files
  induction files with
  | nil => intro acc; simp
  | cons f rest ih =>
    intro acc
    have h := ih (convStep acc f (oracle f))
    constructor
    · rw [List.foldl_cons, h.1, convStep_counts]
      simp [List.length_cons]
      omega
    · rw [List.foldl_cons, h.2, convStep_calls]
      simp [List.flatMap_cons, List.append_assoc]

/-- C7 (amended): after the processing loop, successCount + failCount equals
the number of .json files found; the SDK calls are the per-file
contributions in order; each file contributes at most one createIndex call;
a file yielding zero documents counts as a failure without calling
createIndex; and a file with documents leads to exactly one createIndex
call whose index name is the file name with the first occurrence of ".json"
removed (which equals the name minus its .json suffix whenever ".json"
occurs only as the suffix). -/
theorem conversation_indexes_spec (files : List String)
    (oracle : String → ConvFileOutcome) :
    ((createConversationIndexes files oracle).successCount +
      (createConversationIndexes files oracle).failCount =
      (files.filter endsWithJson).length) ∧
    ((createConversationIndexes files oracle).calls =
      (files.filter endsWithJson).flatMap
        (fun f => (processConvFile f (oracle f)).2)) ∧
    (∀ f o, ((processConvFile f o).2).length ≤ 1) ∧
    (∀ f o, o.loadResult = Except.ok ([] : List String) →
      processConvFile f o = (false, [])) ∧
    (∀ f o docs, o.loadResult = Except.ok docs → docs ≠ [] →
      (processConvFile f o).2 =
        [SdkCall.createIndex (jsReplaceFirst f ".json")]) := by
  have h := conv_foldl oracle (files.filter endsWithJson) ⟨0, 0, []⟩
  refine ⟨?_, ?_, ?_, ?_, ?_⟩
  · simpa [createConversationIndexes] using h.1
  · simpa [createConversationIndexes] using h.2
  · intro f o
    unfold processConvFile
    cases o.loadResult with
    | error e => simp
    | ok docs =>
      by_cases hd : docs.length = 0
      · simp [hd]
      · cases o.createResult <;> simp [hd]
  · intro f o h0
    unfold processConvFile
    rw [h0]
    simp
  · intro f o docs hdocs hne
    unfold processConvFile
    rw [hdocs]
    have : ¬docs.length = 0 := by
      intro hc; exact hne (List.length_eq_zero.mp hc)
    cases o.createResult <;> simp [this]

/-- Witness for C7 (amended) at one good file, one empty file and one
throwing file: counters sum to the number of .json files and the calls are
as predicted. -/
theorem conversation_indexes_spec_witness :
    (createConversationIndexes ["good.json", "empty.json", "bad.json", "skip.txt"]
      (fun f =>
        if f = "good.json" then ⟨Except.ok ["m1"], none⟩
        else if f = "empty.json" then ⟨Except.ok [], none⟩
        else ⟨Except.error "read error", none⟩)).successCount +
    (createConversationIndexes ["good.json", "empty.json", "bad.json", "skip.txt"]
      (fun f =>
        if f = "good.json" then ⟨Except.ok ["m1"], none⟩
        else if f = "empty.json" then ⟨Except.ok [], none⟩
        else ⟨Except.error "read error", none⟩)).failCount = 3 := by
  have h := (conversation_indexes_spec
    ["good.json", "empty.json", "bad.json", "skip.txt"]
    (fun f =>
      if f = "good.json" then ⟨Except.ok ["m1"], none⟩
      else if f = "empty.json" then ⟨Except.ok [], none⟩
      else ⟨Except.error "read error", none⟩)).1
  simpa using h

/-- C7's parenthetical fails for a file name where ".json" occurs before the
suffix: for "b.jsonx.json" the code removes the first occurrence and calls
createIndex with "bx.json", not the suffix-stripped "b.jsonx". -/
theorem conversation_index_name_counterexample :
    (createConversationIndexes ["b.jsonx.json"]
      (fun _ => ⟨Except.ok ["m1"], none⟩)).calls =
        [SdkCall.createIndex "bx.json"] ∧
    stripJsonSuffix "b.jsonx.json" = "b.jsonx" ∧
    ("bx.json" : String) ≠ "b.jsonx" := by decide

/-- The three sample queries of load_and_query_sample.ts (part_012). -/
def sampleQueries : List String :=
  ["how to return damaged item", "return shipping label process",
   "refund processing time and policy"]

/-- The per-query loop of loadAndQuerySample: each iteration issues
client.query inside a try/catch whose handler only logs, so the loop
continues to the next query on success and failure alike. -/
def loadAndQueryLoop (indexName : String) (qs : List String)
    (oracle : String → Option String) : List SdkCall :=
  match qs with
  | [] => []
  | q :: rest =>
    match oracle q with
    | some _ =>
      SdkCall.query indexName q :: loadAndQueryLoop indexName rest oracle
    | none =>
      SdkCall.query indexName q :: loadAndQueryLoop indexName rest oracle

/-- part_012 loadAndQuerySample: env guard on all three variables (`none`
models the early return before the client is constructed), loadIndex inside
the outer try (an error there is caught and ends the sample), then the
query loop. -/
def loadAndQuerySample (env : MossEnv) (loadOutcome : Option String)
    (oracle : String → Option String) : Option (List SdkCall) :=
  if envPresent env.projectId && envPresent env.projectKey &&
      envPresent env.indexName then
    some (SdkCall.loadIndex (env.indexName.getD "") ::
      (match loadOutcome with
       | some _ => []
       | none => loadAndQueryLoop (env.indexName.getD "") sampleQueries oracle))
  else none

lemma loadAndQueryLoop_map (indexName : String) :
    ∀ (qs : List String) (oracle : String → Option String),
      loadAndQueryLoop indexName qs oracle =
        qs.map (fun q => SdkCall.query indexName q) := by
  intro qs
  induction qs with
  | nil => intro oracle; rfl
  | cons q rest ih =>
    intro oracle
    cases ho : oracle q <;> simp [loadAndQueryLoop, ho, ih]

/-- C6: an exception thrown by client.query for one query is caught inside
the loop body, so the loop issues every query in the list in order, for
every assignment of per-query outcomes; in particular loadAndQuerySample
with valid environment and a successful loadIndex always issues all three
sample queries. -/
theorem load_and_query_continue_spec (env : MossEnv)
    (h1 : envPresent env.projectId = true)
    (h2 : envPresent env.projectKey = true)
    (h3 : envPresent env.indexName = true) :
    (∀ idx qs oracle, loadAndQueryLoop idx qs oracle =
      qs.map (fun q => SdkCall.query idx q)) ∧
    (∀ oracle, loadAndQuerySample env none oracle =
      some (SdkCall.loadIndex (env.indexName.getD "") ::
        sampleQueries.map
          (fun q => SdkCall.query (env.indexName.getD "") q))) := by
  refine ⟨fun idx qs oracle => loadAndQueryLoop_map idx qs oracle, ?_⟩
  intro oracle
  simp [loadAndQuerySample, h1, h2, h3, loadAndQueryLoop_map]

/-- Witness for C6: with the second query failing, all three queries are
still issued in order. -/
theorem load_and_query_continue_spec_witness :
    loadAndQuerySample ⟨some "p", some "k", some "faq"⟩ none
      (fun q => if q = "return shipping label process"
                then some "boom" else none) =
      some [SdkCall.loadIndex "faq",
            SdkCall.query "faq" "how to return damaged item",
            SdkCall.query "faq" "return shipping label process",
            SdkCall.query "faq" "refund processing time and policy"] := by
  have h := (load_and_query_continue_spec ⟨some "p", some "k", some "faq"⟩
    (by decide) (by decide) (by decide)).2
    (fun q => if q = "return shipping label process"
              then some "boom" else none)
  simpa [sampleQueries] using h

/- ======================================================================
   C4 / C5: next-js/app/actions.ts searchMoss (lines 9–45).
   ====================================================================== -/

/-- A document in the SDK's query response. -/
structure SdkDoc where
  id : String
  text : String
  score : Int
  metadata : Option (List (String × String))
deriving DecidableEq

/-- SDK query response: ranked docs plus reported latency. -/
structure QueryResponse where
  docs : List SdkDoc
  timeTakenInMs : Int
deriving DecidableEq

/-- A document as returned to the Next.js client by searchMoss: exactly the
fields id, text, score and metadata. -/
structure ResultDoc where
  id : String
  text : String
  score : Int
  metadata : Option (List (String × String))
deriving DecidableEq

/-- The field projection searchMoss applies to each SDK doc. -/
def projDoc (d : SdkDoc) : ResultDoc :=
  { id := d.id, text := d.text, score := d.score, metadata := d.metadata }

/-- Value searchMoss returns when it returns normally: success true with
docs and timeTaken, or success false with an error message. -/
inductive SearchMossReturn where
  | ok (docs : List ResultDoc) (timeTaken : Int)
  | failed (error : String)
deriving DecidableEq

/-- next-js searchMoss: the env guard throws (the only rethrow path); then
loadIndex and query run inside the try, the docs are mapped to their four
fields and returned with timeTakenInMs; the catch returns success false
with the error message. -/
def searchMoss (env : MossEnv) (loadOutcome : Option String)
    (queryOutcome : Except String QueryResponse) :
    Except String SearchMossReturn :=
  if envPresent env.projectId && envPresent env.projectKey &&
      envPresent env.indexName then
    Except.ok
      (match loadOutcome with
       | some e => SearchMossReturn.failed e
       | none =>
         match queryOutcome with
         | Except.error e => SearchMossReturn.failed e
         | Except.ok r =>
           SearchMossReturn.ok (r.docs.map projDoc) r.timeTakenInMs)
  else Except.error "Missing Moss credentials in environment variables."

/-- C4: with credentials present, a successful loadIndex and query yield
success true with the docs mapped one-to-one (same length and order, fields
id, text, score, metadata preserved) and timeTaken equal to the SDK's
timeTakenInMs; a throwing loadIndex or query yields success false with the
error message; and searchMoss never rethrows in these cases. -/
theorem search_moss_spec (env : MossEnv)
    (h1 : envPresent env.projectId = true)
    (h2 : envPresent env.projectKey = true)
    (h3 : envPresent env.indexName = true) :
    (∀ r, searchMoss env none (Except.ok r) =
      Except.ok (SearchMossReturn.ok (r.docs.map projDoc) r.timeTakenInMs)) ∧
    (∀ l : List SdkDoc, (l.map projDoc).length = l.length) ∧
    (∀ (l : List SdkDoc) (i : Nat),
      ((l.map projDoc).get? i).map ResultDoc.id = (l.get? i).map SdkDoc.id ∧
      ((l.map projDoc).get? i).map ResultDoc.text = (l.get? i).map SdkDoc.text ∧
      ((l.map projDoc).get? i).map ResultDoc.score = (l.get? i).map SdkDoc.score ∧
      ((l.map projDoc).get? i).map ResultDoc.metadata =
        (l.get? i).map SdkDoc.metadata) ∧
    (∀ e qo, searchMoss env (some e) qo =
      Except.ok (SearchMossReturn.failed e)) ∧
    (∀ e, searchMoss env none (Except.error e) =
      Except.ok (SearchMossReturn.failed e)) ∧
    (∀ lo qo, ∃ ret, searchMoss env lo qo = Except.ok ret) := by
  have hguard : (envPresent env.projectId && envPresent env.projectKey &&
      envPresent env.indexName) = true := by
    simp [h1, h2, h3]
  refine ⟨?_, ?_, ?_, ?_, ?_, ?_⟩
  · intro r
    simp [searchMoss, hguard]
  · intro l
    simp
  · intro l i
    refine ⟨?_, ?_, ?_, ?_⟩ <;> simp [List.get?_map, projDoc, Option.map_map] <;> rfl
  · intro e qo
    simp [searchMoss, hguard]
  · intro e
    simp [searchMoss, hguard]
  · intro lo qo
    simp only [searchMoss, hguard, if_true]
    exact ⟨_, rfl⟩

/-- Witness for C4 at a concrete environment and one-document response. -/
theorem search_moss_spec_witness :
    searchMoss ⟨some "p", some "k", some "faq"⟩ none
      (Except.ok ⟨[⟨"d1", "hello", 9, none⟩], 3⟩) =
      Except.ok (SearchMossReturn.ok [⟨"d1", "hello", 9, none⟩] 3) := by
  have h := (search_moss_spec ⟨some "p", some "k", some "faq"⟩
    (by decide) (by decide) (by decide)).1 ⟨[⟨"d1", "hello", 9, none⟩], 3⟩
  simpa [projDoc] using h

/- ======================================================================
   C5: environment-variable guards of the sample entry points.
   ====================================================================== -/

/-- clustering.ts main including the env guard (lines 20–25): only the two
credentials are checked; a missing one exits before constructing the
clients (`none`).  The returned trace starts at the poll loop. -/
def clusteringMain (env : MossEnv) (statuses : List String) :
    Option (List ClusterEvent) :=
  if envPresent env.projectId && envPresent env.projectKey then
    some (clusteringMainTrace statuses)
  else none

/-- document-cluster-example.ts main guard (lines 14–24): only the two
credentials are required; the target index comes from MOSS_DOCUMENT_INDEX
with a built-in default. -/
def documentClusterMain (env : MossEnv) : Option Unit :=
  if envPresent env.projectId && envPresent env.projectKey then some ()
  else none

/-- C5 as stated fails on comprehensive_sample.ts: with MOSS_PROJECT_ID and
MOSS_PROJECT_KEY set but MOSS_INDEX_NAME unset, the sample does not stop —
it constructs the client and issues the whole workflow of SDK calls
(the index name is generated from a timestamp instead). -/
theorem env_guard_counterexample :
    comprehensiveMossExample ⟨some "p", some "k", none⟩ "t" [] none =
      some (comprehensiveSteps "comprehensive-demo-t", none) := by decide

/-- C5 (amended): every sample entry point requires MOSS_PROJECT_ID and
MOSS_PROJECT_KEY and stops (returns early, throws, or exits) before
constructing a Moss client or issuing any Moss SDK call whenever either is
unset or empty; the entry points that consume MOSS_INDEX_NAME — the Next.js
searchMoss action, loadAndQuerySample, and the custom-embeddings sample —
additionally stop when it is unset or empty. -/
theorem env_guard_spec (env : MossEnv) (cenv : CustomEnv)
    (henv : envPresent env.projectId = false ∨
      envPresent env.projectKey = false)
    (hcenv : envPresent cenv.projectId = false ∨
      envPresent cenv.projectKey = false) :
    (∀ statuses, clusteringMain env statuses = none) ∧
    (∀ files oracle, createConversationIndexesMain env files oracle = none) ∧
    (∀ ts outs c, comprehensiveMossExample env ts outs c = none) ∧
    documentClusterMain env = none ∧
    (∀ lo oracle, loadAndQuerySample env lo oracle = none) ∧
    (∀ lo qo, searchMoss env lo qo =
      Except.error "Missing Moss credentials in environment variables.") ∧
    (∀ outs c, customEmbeddingSample cenv outs c = none) ∧
    (∀ env' : MossEnv, envPresent env'.indexName = false →
      (∀ lo oracle, loadAndQuerySample env' lo oracle = none) ∧
      (∀ lo qo, searchMoss env' lo qo =
        Except.error "Missing Moss credentials in environment variables.")) ∧
    (∀ cenv' : CustomEnv, envPresent cenv'.indexName = false →
      ∀ outs c, customEmbeddingSample cenv' outs c = none) := by
  have hg : (envPresent env.projectId && envPresent env.projectKey) = false := by
    rcases henv with h | h <;> simp [h]
  have hg3 : (envPresent env.projectId && envPresent env.projectKey &&
      envPresent env.indexName) = false := by
    simp [hg]
  have hcg : (envPresent cenv.projectId && envPresent cenv.projectKey &&
      envPresent cenv.openaiApiKey && envPresent cenv.indexName) = false := by
    rcases hcenv with h | h <;> simp [h]
  refine ⟨?_, ?_, ?_, ?_, ?_, ?_, ?_, ?_, ?_⟩
  · intro statuses; simp [clusteringMain, hg]
  · intro files oracle; simp [createConversationIndexesMain, hg]
  · intro ts outs c; simp [comprehensiveMossExample, hg]
  · simp [documentClusterMain, hg]
  · intro lo oracle; simp [loadAndQuerySample, hg3]
  · intro lo qo; simp [searchMoss, hg3]
  · intro outs c; simp [customEmbeddingSample, hcg]
  · intro env' h
    constructor
    · intro lo oracle; simp [loadAndQuerySample, h]
    · intro lo qo; simp [searchMoss, h]
  · intro cenv' h outs c
    simp [customEmbeddingSample, h]

/-- Witness for C5 (amended): with MOSS_PROJECT_KEY unset, the
load-and-query sample stops before any SDK call. -/
theorem env_guard_spec_witness :
    loadAndQuerySample ⟨some "p", none, some "faq"⟩ none (fun _ => none) =
      none :=
  (env_guard_spec ⟨some "p", none, some "faq"⟩ ⟨some "p", none, none, none⟩
    (Or.inr rfl) (Or.inr rfl)).2.2.2.2.1 none (fun _ => none)

/- ======================================================================
   C8: useMossContextEvents (src/unnamed/part_010).

   `JSON.parse` output is modelled by an inductive JSON value (a thrown
   parse error is `none`); JavaScript numbers are modelled as integers and
   `Date.now() / 1000` is the `nowSec` parameter.  The source field name
   `matches` is a reserved word in Lean and is rendered `matchItems`.
   ====================================================================== -/

/-- A JSON value as produced by JSON.parse. -/
inductive Json where
  | null
  | bool (b : Bool)
  | num (n : Int)
  | str (s : String)
  | arr (items : List Json)
  | obj (fields : List (String × Json))

/-- JavaScript truthiness of a JSON value: null, false, 0 and "" are
falsy. -/
def jsFalsy : Json → Bool
  | Json.null => true
  | Json.bool b => !b
  | Json.num n => n == 0
  | Json.str s => s.isEmpty
  | _ => false

/-- Property access `j.field` on a truthy parsed JSON value: objects yield
the named field or undefined (`none`); arrays and primitives yield
undefined for the names used here. -/
def jsGet : Json → String → Option Json
  | Json.obj fields, k => (fields.find? (fun p => p.1 == k)).map (fun p => p.2)
  | _, _ => none

/-- The check `message.type !== 'moss_context'`, negated: the property is
the string "moss_context". -/
def isMossContextType : Option Json → Bool
  | some (Json.str s) => s == "moss_context"
  | _ => false

/-- An item kept by the matches filter: truthy and of typeof 'object',
i.e. an array or an object (null is falsy). -/
def isObjectLike : Json → Bool
  | Json.arr _ => true
  | Json.obj _ => true
  | _ => false

/-- One entry of a moss context event's matches list. -/
structure MossMatch where
  text : String
  score : Option Int
  metadata : Option Json

/-- A parsed moss context event (`matchItems` is the source's `matches`). -/
structure MossContextEvent where
  id : String
  query : String
  matchItems : List MossMatch
  timestamp : Int
  timeTakenMs : Option Int

/-- Build one match from a filtered item: string text (with the stable
"Match n" fallback when empty), numeric score or undefined, metadata as
is. -/
def parseMatch (index : Nat) (item : Json) : MossMatch :=
  let text := (match jsGet item "text" with
    | some (Json.str t) => t
    | _ => "")
  { text := (if text.isEmpty then "Match " ++ toString (index + 1) else text),
    score := (match jsGet item "score" with
      | some (Json.num n) => some n
      | _ => none),
    metadata := (jsGet item "metadata") }

/-- The query string extracted from the data object: a string field or
else the empty string. -/
def queryOf (data : Json) : String :=
  match jsGet data "query" with
  | some (Json.str s) => s
  | _ => ""

/-- Build the event from the data object, the non-empty query and the
current time. -/
def buildEvent (data : Json) (query : String) (nowSec : Int) :
    MossContextEvent :=
  let matchesInput := (match jsGet data "matches" with
    | some (Json.arr xs) => xs
    | _ => [])
  let timestampRaw := (match jsGet data "timestamp" with
    | some (Json.num n) => n
    | _ => nowSec)
  let timestampMs := timestampRaw * 1000
  { id := (toString timestampMs ++ "-" ++ query),
    query := query,
    matchItems := ((matchesInput.filter isObjectLike).mapIdx parseMatch),
    timestamp := timestampMs,
    timeTakenMs := (match jsGet data "time_taken_ms" with
      | some (Json.num n) => some n
      | _ => none) }

/-- Handle a data value whose typeof is 'object' and that is not null: an
empty (or non-string) query yields null, otherwise the event is built. -/
def parseDataObject (data : Json) (nowSec : Int) : Option MossContextEvent :=
  if (queryOf data).isEmpty then none
  else some (buildEvent data (queryOf data) nowSec)

/-- parsePayload (part_010 lines 24–70).  `none` input models a JSON.parse
throw, caught by the try/catch.  A falsy message, a type other than
'moss_context', a data value whose typeof is not 'object', a null data
(whose property access throws inside the try) and an empty or non-string
query all yield null. -/
def parsePayload (payload : Option Json) (nowSec : Int) :
    Option MossContextEvent :=
  match payload with
  | none => none
  | some message =>
    if jsFalsy message then none
    else if !isMossContextType (jsGet message "type") then none
    else
      match jsGet message "data" with
      | none => none
      | some Json.null => none
      | some (Json.bool _) => none
      | some (Json.num _) => none
      | some (Json.str _) => none
      | some (Json.arr xs) => parseDataObject (Json.arr xs) nowSec
      | some (Json.obj fields) => parseDataObject (Json.obj fields) nowSec

/-- The last `m` elements of a list (JavaScript `slice(-m)` for m ≥ 1). -/
def sliceLast {α} (m : Nat) (l : List α) : List α := l.drop (l.length - m)

/-- The setEvents update of handleData: append the parsed event and keep
only the last maxEvents entries when the bound is positive and exceeded. -/
def pushEvent (maxEvents : Nat) (events : List MossContextEvent)
    (e : MossContextEvent) : List MossContextEvent :=
  let next := events ++ [e]
  if 0 < maxEvents ∧ maxEvents < next.length then sliceLast maxEvents next
  else next

/-- handleData: a payload that parses to null leaves the list unchanged;
otherwise the event is pushed. -/
def handleData (maxEvents : Nat) (events : List MossContextEvent)
    (payload : Option Json) (nowSec : Int) : List MossContextEvent :=
  match parsePayload payload nowSec with
  | none => events
  | some e => pushEvent maxEvents events e

/-- The hook's event list after receiving the given payloads in order,
starting from the initial empty list. -/
def receiveAll (maxEvents : Nat) (items : List (Option Json × Int)) :
    List MossContextEvent :=
  items.foldl (fun evs it => handleData maxEvents evs it.1 it.2) []

lemma sliceLast_length {α} (m : Nat) (l : List α) :
    (sliceLast m l).length ≤ m := by
  simp only [sliceLast, List.length_drop]
  omega

lemma pushEvent_sliceLast (m : Nat) (hm : 0 < m)
    (l : List MossContextEvent) (e : MossContextEvent) :
    pushEvent m (sliceLast m l) e = sliceLast m (l ++ [e]) := by
  by_cases hL : l.length < m
  · have h0 : l.length - m = 0 := by omega
    have h1 : l.length + 1 - m = 0 := by omega
    have hsl : sliceLast m l = l := by simp [sliceLast, h0]
    have hsr : sliceLast m (l ++ [e]) = l ++ [e] := by
      simp [sliceLast, List.length_append, h1]
    rw [hsl, hsr]
    simp only [pushEvent]
    rw [if_neg]
    intro hcon
    have := hcon.2
    simp [List.length_append] at this
    omega
  · push_neg at hL
    have hlen : (sliceLast m l).length = m := by
      simp only [sliceLast, List.length_drop]
      omega
    have hcond : 0 < m ∧ m < (sliceLast m l ++ [e]).length := by
      refine ⟨hm, ?_⟩
      simp [List.length_append, hlen]
    simp only [pushEvent]
    rw [if_pos hcond]
    have hsplit : sliceLast m l ++ [e] = (l ++ [e]).drop (l.length - m) := by
      simp only [sliceLast]
      rw [List.drop_append_of_le_length (by omega)]
    rw [hsplit]
    simp only [sliceLast, List.length_drop, List.length_append,
      List.length_cons, List.length_nil]
    rw [List.drop_drop]
    congr 1
    omega

lemma receiveAll_fold (m : Nat) (hm : 0 < m) :
    ∀ (items : List (Option Json × Int)) (l : List MossContextEvent),
      items.foldl (fun evs it => handleData m evs it.1 it.2) (sliceLast m l) =
        sliceLast m (l ++ items.filterMap (fun it => parsePayload it.1 it.2)) := by
  intro items
  induction items with
  | nil => intro l; simp
  | cons it rest ih =>
    intro l
    rw [List.foldl_cons]
    cases hp : parsePayload it.1 it.2 with
    | none =>
      have hstep : handleData m (sliceLast m l) it.1 it.2 = sliceLast m l := by
        simp [handleData, hp]
      rw [hstep, ih l, List.filterMap_cons, hp]
    | some e =>
      have hstep : handleData m (sliceLast m l) it.1 it.2 =
          sliceLast m (l ++ [e]) := by
        simp [handleData, hp, pushEvent_sliceLast m hm]
      rw [hstep, ih (l ++ [e]), List.filterMap_cons, hp, List.append_assoc]
      rfl

lemma parseDataObject_query (data : Json) (now : Int) (e : MossContextEvent)
    (h : parseDataObject data now = some e) : e.query ≠ "" := by
  unfold parseDataObject at h
  split at h
  · simp at h
  · rename_i hne
    injection h with h
    intro hq
    apply hne
    have hquery : e.query = queryOf data := by rw [← h]; rfl
    rw [← hquery, hq]
    rfl

/-- C8: with maxEvents > 0 the hook's event list after any sequence of
received payloads holds at most maxEvents events, namely the most recently
parsed ones in arrival order (the last-maxEvents slice of the parsed
sequence); an invalid-JSON payload, a payload whose type is not
'moss_context', and a payload carrying an empty query each produce no
event (parsePayload returns null on them). -/
theorem moss_context_events_spec (m : Nat) (hm : 0 < m) :
    (∀ items, (receiveAll m items).length ≤ m) ∧
    (∀ items, receiveAll m items =
      sliceLast m (items.filterMap (fun it => parsePayload it.1 it.2))) ∧
    (∀ now, parsePayload none now = none) ∧
    (∀ j now, jsFalsy j = true → parsePayload (some j) now = none) ∧
    (∀ j now, isMossContextType (jsGet j "type") = false →
      parsePayload (some j) now = none) ∧
    (∀ p now e, parsePayload p now = some e → e.query ≠ "") := by
  have heq : ∀ items, receiveAll m items =
      sliceLast m (items.filterMap (fun it => parsePayload it.1 it.2)) := by
    intro items
    have h := receiveAll_fold m hm items []
    simpa [receiveAll, sliceLast] using h
  refine ⟨?_, heq, fun _ => rfl, ?_, ?_, ?_⟩
  · intro items
    rw [heq items]
    exact sliceLast_length m _
  · intro j now h
    simp [parsePayload, h]
  · intro j now h
    by_cases hf : jsFalsy j <;> simp [parsePayload, hf, h]
  · intro p now e h
    match p with
    | none => simp [parsePayload] at h
    | some message =>
      simp only [parsePayload] at h
      split at h
      · simp at h
      · split at h
        · simp at h
        · split at h
          · simp at h
          · simp at h
          · simp at h
          · simp at h
          · simp at h
          · exact parseDataObject_query _ _ _ h
          · exact parseDataObject_query _ _ _ h

/-- Witness for C8: three concrete payloads (the middle one rejected for
its empty query) with maxEvents = 1 leave at most one event. -/
theorem moss_context_events_spec_witness :
    (receiveAll 1
      [(some (Json.obj [("type", Json.str "moss_context"),
         ("data", Json.obj [("query", Json.str "hi"),
           ("timestamp", Json.num 7)])]), 0),
       (some (Json.obj [("type", Json.str "moss_context"),
         ("data", Json.obj [("query", Json.str "")])]), 0),
       (some (Json.obj [("type", Json.str "moss_context"),
         ("data", Json.obj [("query", Json.str "again"),
           ("timestamp", Json.num 9)])]), 0)]).length ≤ 1 :=
  (moss_context_events_spec 1 (by decide)).1 _
